import Mathlib

/-!
Verification model of the FastAPI service in `src/main.py` (LLM-audio-processing).

The file shallowly embeds the Python source: pure helpers become Lean
functions on `String`/`List Char`/`ℚ`; the `/ask` handler becomes a function
from the request plus the results of the two external calls (transcript
fetch, chat completion) to an HTTP outcome.  Python `float` arithmetic in
`seconds_to_hhmmss` is modelled exactly over `ℚ` (the operations used —
`//`, `%`, `int` — are exact on the values the code manipulates).
-/

namespace App

/-! ### Python string primitives -/

/-- The characters Python's `str.strip()` (no argument) removes. -/
def pyIsWs (c : Char) : Bool :=
  c = ' ' || c = '\t' || c = '\n' || c = '\r' || c = '\x0b' || c = '\x0c'

/-- Strip characters satisfying `p` from both ends of a list. -/
def stripList (p : Char → Bool) (cs : List Char) : List Char :=
  ((cs.dropWhile p).reverse.dropWhile p).reverse

/-- Python `s.strip()`. -/
def pyStripWs (s : String) : String :=
  String.mk (stripList pyIsWs s.toList)

/-- Python `s.strip(chars)`: `chars` is a set of characters removed from both ends. -/
def pyStripChars (s : String) (set : List Char) : String :=
  String.mk (stripList (fun c => set.contains c) s.toList)

/-! ### Exceptions and HTTP outcomes

`fastapi.HTTPException` subclasses `Exception`; `str()` of it renders as
`"<status>: <detail>"` (starlette's `HTTPException.__str__`).  `Exc.other`
stands for any non-HTTP Python exception, carrying its `str()` form. -/

inductive Exc where
  | http (status : Nat) (detail : String)
  | other (msg : String)
deriving DecidableEq

def strOfExc : Exc → String
  | .http c d => toString c ++ ": " ++ d
  | .other m => m

/-- Request body of `POST /ask` (`AskRequest`, lines 28-30). -/
structure AskRequest where
  video_url : String
  topic : String
deriving DecidableEq

/-- Success body of `POST /ask` (`AskResponse`, lines 32-35). -/
structure AskResponse where
  timestamp : String
  video_url : String
  topic : String
deriving DecidableEq

/-- Response of the endpoint as seen by the client: a 200 body or an
error status with a `detail` string. -/
inductive Outcome where
  | ok (resp : AskResponse)
  | error (status : Nat) (detail : String)
deriving DecidableEq

/-! ### `extract_video_id` (src/main.py lines 38-43)

`re.search(r"(?:v=|\/)([0-9A-Za-z_-]{11}).*", url)`: the leftmost position
at which either `v=` or `/` is followed by 11 characters of the class
`[0-9A-Za-z_-]` wins; `.*` matches anything, group 1 is the 11 characters. -/

/-- The character class `[0-9A-Za-z_-]` (ASCII alphanumerics, `_`, `-`). -/
def isVidChar (c : Char) : Bool :=
  c.isAlphanum || c = '_' || c = '-'

/-- The 11-character group capture, if `rest` starts with 11 class characters. -/
def tokenOf (rest : List Char) : Option String :=
  let t := rest.take 11
  if t.length = 11 && t.all isVidChar then some (String.mk t) else none

/-- Whether the regex `(?:v=|\/)([0-9A-Za-z_-]{11}).*` matches at position `i`
of `cs`, and the captured group when it does. -/
def matchAt (cs : List Char) (i : Nat) : Option String :=
  match cs.drop i with
  | 'v' :: '=' :: rest => tokenOf rest
  | '/' :: rest => tokenOf rest
  | _ => none

/-- First `some` of `f` on positions `start, start+1, …` (at most `k` of them). -/
def firstHit (f : Nat → Option String) : Nat → Nat → Option String
  | _, 0 => none
  | start, k+1 =>
    match f start with
    | some t => some t
    | none => firstHit f (start + 1) k

/-- Model of `re.search` for the video-id pattern: leftmost match over all positions. -/
def regexSearch (cs : List Char) : Option String :=
  firstHit (matchAt cs) 0 (cs.length + 1)

/-- The function `extract_video_id` (lines 38-43): the captured group, or
`HTTPException(400, "Invalid YouTube URL")`. -/
def extract_video_id (url : String) : Except Exc String :=
  match regexSearch url.toList with
  | some t => Except.ok t
  | none => Except.error (Exc.http 400 "Invalid YouTube URL")

/-! ### `seconds_to_hhmmss` (src/main.py lines 46-50) -/

/-- Python float `//` on exact values: `x // y = float(⌊x / y⌋)`. -/
def pyFloorDivQ (x y : ℚ) : ℚ := (⌊x / y⌋ : ℚ)

/-- Python float `%` on exact values: `x % y = x - y * ⌊x / y⌋` (sign of `y`). -/
def pyModQ (x y : ℚ) : ℚ := x - y * (⌊x / y⌋ : ℚ)

/-- Python `int()` on a float value: truncation toward zero. -/
def pyTrunc (q : ℚ) : Int := if q < 0 then ⌈q⌉ else ⌊q⌋

/-- The f-string field `{n:02d}`: decimal form, left-padded with `0` to width 2. -/
def pad2 (n : Int) : String :=
  let s := toString n
  if s.length < 2 then "0" ++ s else s

/-- The function `seconds_to_hhmmss` (lines 46-50):
`hours = int(seconds // 3600)`, `minutes = int((seconds % 3600) // 60)`,
`secs = int(seconds % 60)`, rendered as `"{hours:02d}:{minutes:02d}:{secs:02d}"`. -/
def seconds_to_hhmmss (seconds : ℚ) : String :=
  let hours : Int := pyTrunc (pyFloorDivQ seconds 3600)
  let minutes : Int := pyTrunc (pyFloorDivQ (pyModQ seconds 3600) 60)
  let secs : Int := pyTrunc (pyModQ seconds 60)
  pad2 hours ++ ":" ++ pad2 minutes ++ ":" ++ pad2 secs

/-! ### Transcript formatting (src/main.py lines 74-78) -/

/-- One raw transcript segment (`to_raw_data()` item): `item['start']`,
`item['text']`. -/
structure TranscriptSegment where
  start : ℚ
  text : String
deriving DecidableEq

/-- The f-string `f"[{time_str}] {item['text']}\n"` of line 78. -/
def fmtEntry (it : TranscriptSegment) : String :=
  "[" ++ seconds_to_hhmmss it.start ++ "] " ++ it.text ++ "\n"

/-- The Step-3 loop: `formatted_transcript += f"[{time_str}] {item['text']}\n"`. -/
def formatTranscript (segs : List TranscriptSegment) : String :=
  segs.foldl (fun acc it => acc ++ fmtEntry it) ""

/-- Number of line terminators in a string. -/
def lineCount (s : String) : Nat := s.toList.count '\n'

/-! ### A model of Python `json.loads` (strict JSON, RFC 8259)

Used by line 132 of the source.  Python strings are modelled over Unicode
scalar values; `\uXXXX` escapes outside the valid scalar range degrade to
`Char.ofNat`'s default, and the Python extensions `NaN`/`Infinity` (IEEE
floats, unrepresentable here) are not modelled.  Numbers are exact `ℚ`. -/

inductive JValue where
  | null
  | bool (b : Bool)
  | num (q : ℚ)
  | str (s : String)
  | arr (xs : List JValue)
  | obj (kvs : List (String × JValue))

/-- JSON insignificant whitespace. -/
def jsonWs (c : Char) : Bool :=
  c = ' ' || c = '\t' || c = '\n' || c = '\r'

def skipWs (cs : List Char) : List Char :=
  cs.dropWhile jsonWs

/-- Single-character string escapes `\" \\ \/ \b \f \n \r \t`. -/
def escChar : Char → Option Char
  | 'n' => some '\n'
  | 't' => some '\t'
  | 'r' => some '\r'
  | 'b' => some '\x08'
  | 'f' => some '\x0c'
  | '"' => some '"'
  | '\\' => some '\\'
  | '/' => some '/'
  | _ => none

def hexVal (c : Char) : Option Nat :=
  if c.isDigit then some (c.toNat - '0'.toNat)
  else if 'a' ≤ c && c ≤ 'f' then some (10 + c.toNat - 'a'.toNat)
  else if 'A' ≤ c && c ≤ 'F' then some (10 + c.toNat - 'A'.toNat)
  else none

/-- Body of a JSON string after the opening quote: the decoded characters and
the input after the closing quote.  Unescaped control characters are
rejected (Python `strict=True`). -/
def parseStringBody : List Char → Option (List Char × List Char)
  | [] => none
  | '"' :: rest => some ([], rest)
  | '\\' :: 'u' :: a :: b :: c :: d :: rest =>
    (match hexVal a, hexVal b, hexVal c, hexVal d with
    | some x, some y, some z, some w =>
      (parseStringBody rest).map
        (fun r => (Char.ofNat (((x * 16 + y) * 16 + z) * 16 + w) :: r.1, r.2))
    | _, _, _, _ => none)
  | '\\' :: e :: rest =>
    (match escChar e with
    | some c => (parseStringBody rest).map (fun r => (c :: r.1, r.2))
    | none => none)
  | c :: rest =>
    if c.toNat < 32 then none
    else (parseStringBody rest).map (fun r => (c :: r.1, r.2))

def spanDigits (cs : List Char) : List Char × List Char :=
  (cs.takeWhile Char.isDigit, cs.dropWhile Char.isDigit)

def digitsToNat (ds : List Char) : Nat :=
  ds.foldl (fun a c => a * 10 + (c.toNat - 48)) 0

/-- JSON number: `-? (0 | [1-9][0-9]*) frac? exp?`, valued exactly in `ℚ`. -/
def parseNumber (cs0 : List Char) : Option (ℚ × List Char) := do
  let (neg, cs1) := match cs0 with
    | '-' :: r => (true, r)
    | _ => (false, cs0)
  let startDigit : Bool := match cs1 with
    | c :: _ => c.isDigit
    | [] => false
  guard (startDigit = true)
  let (ds, cs2) := spanDigits cs1
  guard (¬ (1 < ds.length ∧ ds.head? = some '0'))
  let ip : ℚ := (digitsToNat ds : ℚ)
  let (q2, cs3) ← (match cs2 with
    | '.' :: r =>
      let (fs, r2) := spanDigits r
      if fs.isEmpty then none
      else some (ip + (digitsToNat fs : ℚ) / ((10 : ℚ) ^ fs.length), r2)
    | _ => some (ip, cs2))
  let (q3, cs4) ← (match cs3 with
    | 'e' :: r | 'E' :: r =>
      let (sg, r1) : Int × List Char := match r with
        | '+' :: t => (1, t)
        | '-' :: t => (-1, t)
        | _ => (1, r)
      let (es, r2) := spanDigits r1
      if es.isEmpty then none
      else some (q2 * (10 : ℚ) ^ (sg * (digitsToNat es : Int)), r2)
    | _ => some (q2, cs3))
  pure (if neg then -q3 else q3, cs4)

mutual

/-- Parse one JSON value (with fuel); returns the value and remaining input. -/
def parseValue : Nat → List Char → Option (JValue × List Char)
  | 0, _ => none
  | f+1, cs =>
    match skipWs cs with
    | '"' :: rest =>
      (parseStringBody rest).map (fun r => (JValue.str (String.mk r.1), r.2))
    | '\x7b' :: rest => parseObjBody f rest
    | '[' :: rest => parseArrBody f rest
    | 't' :: 'r' :: 'u' :: 'e' :: rest => some (JValue.bool true, rest)
    | 'f' :: 'a' :: 'l' :: 's' :: 'e' :: rest => some (JValue.bool false, rest)
    | 'n' :: 'u' :: 'l' :: 'l' :: rest => some (JValue.null, rest)
    | other => (parseNumber other).map (fun r => (JValue.num r.1, r.2))

/-- After `{`: an empty object or a member list. -/
def parseObjBody : Nat → List Char → Option (JValue × List Char)
  | 0, _ => none
  | f+1, cs =>
    match skipWs cs with
    | '\x7d' :: rest => some (JValue.obj [], rest)
    | _ => (parseMembers f cs).map (fun r => (JValue.obj r.1, r.2))

/-- One or more `"key": value` members, comma-separated, ended by `}`. -/
def parseMembers : Nat → List Char → Option (List (String × JValue) × List Char)
  | 0, _ => none
  | f+1, cs =>
    match skipWs cs with
    | '"' :: rest => do
      let (kcs, r1) ← parseStringBody rest
      match skipWs r1 with
      | ':' :: r2 => do
        let (v, r3) ← parseValue f r2
        (match skipWs r3 with
        | ',' :: r4 =>
          (parseMembers f r4).map (fun r => ((String.mk kcs, v) :: r.1, r.2))
        | '\x7d' :: r4 => some ([(String.mk kcs, v)], r4)
        | _ => none)
      | _ => none
    | _ => none

/-- After `[`: an empty array or an item list. -/
def parseArrBody : Nat → List Char → Option (JValue × List Char)
  | 0, _ => none
  | f+1, cs =>
    match skipWs cs with
    | ']' :: rest => some (JValue.arr [], rest)
    | _ => (parseItems f cs).map (fun r => (JValue.arr r.1, r.2))

/-- One or more array items, comma-separated, ended by `]`. -/
def parseItems : Nat → List Char → Option (List JValue × List Char)
  | 0, _ => none
  | f+1, cs => do
    let (v, r1) ← parseValue f cs
    match skipWs r1 with
    | ',' :: r2 => (parseItems f r2).map (fun r => (v :: r.1, r.2))
    | ']' :: r2 => some ([v], r2)
    | _ => none

end

/-- Model of `json.loads`: parse a whole document; trailing data fails.  Fuel
`4 * length + 8` strictly dominates the recursion depth, since every
recursive step first consumes at least one input character. -/
def json_loads (s : String) : Option JValue :=
  match parseValue (4 * s.length + 8) s.toList with
  | some (v, rest) => if (skipWs rest).isEmpty then some v else none
  | none => none

/-- Python `dict.get` on the decoded object: with duplicate keys the last
occurrence wins, as in `dict` construction by `json.loads`. -/
def pyDictGet (kvs : List (String × JValue)) (k : String) : Option JValue :=
  kvs.foldl (fun acc kv => if kv.1 = k then some kv.2 else acc) none

/-- Python truthiness of a `json.loads` result (`if not ai_timestamp`). -/
def falsy : JValue → Bool
  | .null => true
  | .bool b => !b
  | .num q => q = 0
  | .str s => s.isEmpty
  | .arr xs => xs.isEmpty
  | .obj kvs => kvs.isEmpty

/-- Python `str()` of a decoded JSON value.  Container and non-integer
float rendering is abbreviated (no claim depends on it); strings, `None`,
booleans and integers are exact. -/
def pyStr : JValue → String
  | .str s => s
  | .null => "None"
  | .bool true => "True"
  | .bool false => "False"
  | .num q => if q.den = 1 then toString q.num else toString q.num ++ "/" ++ toString q.den
  | .arr _ => "<list>"
  | .obj _ => "<dict>"

/-! ### Response cleaning (src/main.py line 128)

`raw_content.strip().strip("```json").strip("```").strip()`.
`str.strip(chars)` treats its argument as a character set, so
`strip("```json")` removes the characters `` ` ``, `j`, `s`, `o`, `n`
from both ends. -/

/-- The character set of the literal `"```json"`. -/
def fenceChars : List Char := ['`', 'j', 's', 'o', 'n']

/-- Line 128's cleanup chain. -/
def cleanContent (s : String) : String :=
  pyStripWs (pyStripChars (pyStripChars (pyStripWs s) fenceChars) ['`'])

/-! ### The `/ask` handler (src/main.py lines 52-152)

External effects become inputs: `fetch` is the outcome of
`YouTubeTranscriptApi().fetch(video_id).to_raw_data()` (line 64-65), `env`
holds `os.getenv("AI_API_TOKEN")` / `os.getenv("CHAT_URL")` (lines 81-82),
and `chat` is the `requests.post` response (line 117): its HTTP status, its
body text, and — for a well-formed 200 body — the extracted
`choices[0].message.content` string (line 125).  The code makes exactly one
completion call and never retries. -/

/-- Result of the transcript fetch: data, or one of the named exceptions
caught at lines 67-72 (`other` carries `str(e)` of any other exception). -/
inductive FetchResult where
  | ok (segs : List TranscriptSegment)
  | disabled
  | notFound
  | other (msg : String)
deriving DecidableEq

/-- The two environment lookups of lines 81-82. -/
structure Env where
  ai_token : Option String
  chat_url : Option String
deriving DecidableEq

/-- The check `if not ai_token or not chat_url` (line 84): `None` and `""` are falsy. -/
def envMissing (env : Env) : Bool :=
  env.ai_token.getD "" = "" || env.chat_url.getD "" = ""

/-- The chat-completion response (line 117): HTTP status, body `text`, and
the `content` field a well-formed 200 body decodes to. -/
structure ChatResponse where
  status_code : Nat
  text : String
  content : String
deriving DecidableEq

/-- The body of the `try:` block, lines 54-149.  Every `raise` becomes
`Except.error`; `Exc.other` models Python's `AttributeError` when
`ai_dict.get` is called on a non-dict decode result. -/
def askInner (req : AskRequest) (fetch : FetchResult) (env : Env)
    (chat : ChatResponse) : Except Exc AskResponse := do
  let _video_id ← extract_video_id req.video_url
  let transcript_list ← (match fetch with
    | .ok segs => Except.ok segs
    | .disabled => Except.error (Exc.http 400
        "The creator disabled subtitles for this video. The text-hack won't work here!")
    | .notFound => Except.error (Exc.http 400 "No transcript found for this video.")
    | .other m => Except.error (Exc.http 400 ("Transcript error: " ++ m)))
  let _formatted_transcript := formatTranscript transcript_list
  if envMissing env then
    throw (Exc.http 500 "API credentials missing in .env file")
  if chat.status_code ≠ 200 then
    throw (Exc.http 400 ("AIPipe Error: " ++ chat.text))
  let raw_content := cleanContent chat.content
  match json_loads raw_content with
  | none => throw (Exc.http 500 ("AI returned invalid JSON: " ++ raw_content))
  | some (JValue.obj kvs) =>
    let ai_timestamp :=
      match pyDictGet kvs "timestamp" with
      | some v => if falsy v then "00:00:00" else pyStr v
      | none => "00:00:00"
    return ⟨ai_timestamp, req.video_url, req.topic⟩
  | some _ => throw (Exc.other "AttributeError: object has no attribute get")

/-- The whole endpoint: the `except Exception as e:` clause at lines 151-152
turns any exception from the body — `HTTPException`s included, since they
subclass `Exception` — into `HTTPException(500, str(e))`. -/
def ask_video_topic (req : AskRequest) (fetch : FetchResult) (env : Env)
    (chat : ChatResponse) : Outcome :=
  match askInner req fetch env chat with
  | .ok r => Outcome.ok r
  | .error e => Outcome.error 500 (strOfExc e)

/-! ### Spec-side definition for refinement comparison -/

/-- Split a character list on a separator (Python `s.split(sep)` for a
one-character separator): `"" ↦ [""]`, `"a:b" ↦ ["a", "b"]`. -/
def splitOnChar (sep : Char) : List Char → List (List Char)
  | [] => [[]]
  | c :: rest =>
    match splitOnChar sep rest with
    | [] => [[c]]
    | h :: t => if c = sep then [] :: h :: t else (c :: h) :: t

/-- Modelled from the spec's words (section 4.2, `TimestampCodec.normalize`,
absent from src/): trim whitespace, split on `:`; two fields → prepend
`00:`; three fields → unchanged; any other shape → sentinel `00:00:00`. -/
def normalize_spec (raw : String) : String :=
  let t := pyStripWs raw
  let fields := splitOnChar ':' t.toList
  if fields.length = 2 then "00:" ++ t
  else if fields.length = 3 then t
  else "00:00:00"

/-! ## Helper lemmas -/

/-! ### Stripping -/

lemma stripList_cons_pos (p : Char → Bool) (a : Char) (cs : List Char)
    (ha : p a = true) : stripList p (a :: cs) = stripList p cs := by
  simp [stripList, List.dropWhile_cons, ha]

lemma stripRight_concat_pos (p : Char → Bool) (b : Char) (l : List Char)
    (hb : p b = true) :
    ((l ++ [b]).reverse.dropWhile p).reverse = (l.reverse.dropWhile p).reverse := by
  rw [List.reverse_append]
  simp [List.dropWhile_cons, hb]

lemma stripList_concat_pos (p : Char → Bool) (b : Char) (hb : p b = true) :
    ∀ cs : List Char, stripList p (cs ++ [b]) = stripList p cs := by
  intro cs
  induction cs with
  | nil => simp [stripList, List.dropWhile_cons, hb]
  | cons a t ih =>
    rcases h : p a with _ | _
    · unfold stripList
      rw [List.cons_append, List.dropWhile_cons, List.dropWhile_cons, h]
      simp only [Bool.false_eq_true, if_false]
      rw [show a :: (t ++ [b]) = (a :: t) ++ [b] from rfl]
      exact stripRight_concat_pos p b (a :: t) hb
    · rw [List.cons_append, stripList_cons_pos p a _ h, stripList_cons_pos p a _ h]
      exact ih

lemma stripList_id_of_ends (p : Char → Bool) (a b : Char) (cs : List Char)
    (ha : p a = false) (hb : p b = false) :
    stripList p (a :: (cs ++ [b])) = a :: (cs ++ [b]) := by
  unfold stripList
  rw [List.dropWhile_cons, ha]
  simp only [Bool.false_eq_true, if_false]
  rw [show (a :: (cs ++ [b])).reverse = b :: (cs.reverse ++ [a]) by simp]
  rw [List.dropWhile_cons, hb]
  simp only [Bool.false_eq_true, if_false]
  simp

/-! ### Leftmost-match search -/

lemma firstHit_eq_some_iff (f : Nat → Option String) :
    ∀ (k s : Nat) (t : String), firstHit f s k = some t ↔
      ∃ i, s ≤ i ∧ i < s + k ∧ f i = some t ∧
        ∀ j, s ≤ j → j < i → f j = none := by
  intro k
  induction k with
  | zero =>
    intro s t
    simp only [firstHit]
    constructor
    · intro h; exact absurd h (by simp)
    · rintro ⟨i, h1, h2, -, -⟩; omega
  | succ k ih =>
    intro s t
    unfold firstHit
    cases hfs : f s with
    | some u =>
      simp only [Option.some_inj]
      constructor
      · rintro rfl
        exact ⟨s, le_refl s, by omega, hfs, fun j hj1 hj2 => absurd (lt_of_le_of_lt hj1 hj2) (lt_irrefl s)⟩
      · rintro ⟨i, h1, h2, h3, h4⟩
        have his : i = s := by
          by_contra hne
          have hlt : s < i := lt_of_le_of_ne h1 (Ne.symm hne)
          have := h4 s (le_refl s) hlt
          rw [this] at hfs
          exact Option.noConfusion hfs
        rw [his] at h3
        rw [hfs] at h3
        exact Option.some_inj.mp h3
    | none =>
      rw [ih (s + 1) t]
      constructor
      · rintro ⟨i, h1, h2, h3, h4⟩
        refine ⟨i, by omega, by omega, h3, fun j hj1 hj2 => ?_⟩
        rcases Nat.eq_or_lt_of_le hj1 with rfl | hlt
        · exact hfs
        · exact h4 j hlt hj2
      · rintro ⟨i, h1, h2, h3, h4⟩
        have hsi : s + 1 ≤ i := by
          rcases Nat.eq_or_lt_of_le h1 with rfl | hlt
          · rw [hfs] at h3; exact Option.noConfusion h3
          · omega
        exact ⟨i, hsi, by omega, h3, fun j hj1 hj2 => h4 j (by omega) hj2⟩

lemma firstHit_eq_none_iff (f : Nat → Option String) :
    ∀ (k s : Nat), firstHit f s k = none ↔
      ∀ i, s ≤ i → i < s + k → f i = none := by
  intro k
  induction k with
  | zero =>
    intro s
    constructor
    · intro _ i h1 h2
      exact absurd h2 (by omega)
    · intro _
      rfl
  | succ k ih =>
    intro s
    unfold firstHit
    cases hfs : f s with
    | some u =>
      constructor
      · intro h; exact Option.noConfusion h
      · intro h
        have := h s (le_refl s) (by omega)
        rw [this] at hfs
        exact Option.noConfusion hfs
    | none =>
      rw [ih (s + 1)]
      constructor
      · intro h i h1 h2
        rcases Nat.eq_or_lt_of_le h1 with rfl | hlt
        · exact hfs
        · exact h i hlt (by omega)
      · intro h i h1 h2
        exact h i (by omega) (by omega)

lemma matchAt_lt_of_some {cs : List Char} {i : Nat} {t : String}
    (h : matchAt cs i = some t) : i < cs.length := by
  by_contra hge
  have hdrop : cs.drop i = [] := List.drop_eq_nil_of_le (by omega)
  rw [matchAt, hdrop] at h
  exact Option.noConfusion h

/-! ### Decimal rendering -/

lemma toDigitsCore_length_mono (b : Nat) :
    ∀ (f n : Nat) (ds : List Char), ds.length ≤ (Nat.toDigitsCore b f n ds).length := by
  intro f
  induction f with
  | zero => intro n ds; simp [Nat.toDigitsCore]
  | succ f ih =>
    intro n ds
    simp only [Nat.toDigitsCore]
    split
    · simp
    · exact le_trans (by simp) (ih (n / b) (Nat.digitChar (n % b) :: ds))

lemma one_le_repr_length (m : Nat) : 1 ≤ (Nat.repr m).length := by
  have hrepr : (Nat.repr m).length = (Nat.toDigits 10 m).length := rfl
  rw [hrepr]
  by_cases hm : m / 10 = 0
  · simp [Nat.toDigits, Nat.toDigitsCore, hm]
  · have hcore : Nat.toDigits 10 m =
        Nat.toDigitsCore 10 m (m / 10) [Nat.digitChar (m % 10)] := by
      simp [Nat.toDigits, Nat.toDigitsCore, hm]
    rw [hcore]
    exact le_trans (by simp) (toDigitsCore_length_mono 10 m (m / 10) [Nat.digitChar (m % 10)])

lemma one_le_toString_int_length (n : Int) : 1 ≤ (toString n).length := by
  cases n with
  | ofNat m => exact one_le_repr_length m
  | negSucc m =>
    show 1 ≤ ("-" ++ Nat.repr (m + 1)).length
    rw [String.length_append]
    have := one_le_repr_length (m + 1)
    omega

lemma two_le_pad2_length (n : Int) : 2 ≤ (pad2 n).length := by
  by_cases h : (toString n).length < 2
  · have hp : pad2 n = "0" ++ toString n := by simp [pad2, h]
    have h0 : ("0" : String).length = 1 := rfl
    rw [hp, String.length_append, h0]
    have := one_le_toString_int_length n
    omega
  · have hp : pad2 n = toString n := by simp [pad2, h]
    rw [hp]
    exact Nat.le_of_not_lt h

/-! ### Python float arithmetic on exact values -/

lemma pyTrunc_intCast (n : Int) : pyTrunc ((n : Int) : ℚ) = n := by
  unfold pyTrunc
  split <;> simp

lemma pyModQ_nonneg (x : ℚ) {y : ℚ} (hy : 0 < y) : 0 ≤ pyModQ x y := by
  unfold pyModQ
  have hfl : ((⌊x / y⌋ : Int) : ℚ) ≤ x / y := Int.floor_le (x / y)
  have hmul : y * ((⌊x / y⌋ : Int) : ℚ) ≤ y * (x / y) :=
    mul_le_mul_of_nonneg_left hfl (le_of_lt hy)
  rw [mul_div_cancel₀ x (ne_of_gt hy)] at hmul
  linarith

lemma pyTrunc_pyModQ (x : ℚ) {y : ℚ} (hy : 0 < y) :
    pyTrunc (pyModQ x y) = ⌊pyModQ x y⌋ := by
  unfold pyTrunc
  rw [if_neg (not_lt.mpr (pyModQ_nonneg x hy))]

/-! ### Transcript formatting -/

lemma foldl_append_entries (g : TranscriptSegment → String) :
    ∀ (segs : List TranscriptSegment) (acc : String),
      segs.foldl (fun a it => a ++ g it) acc =
        acc ++ (segs.map g).foldr (· ++ ·) "" := by
  intro segs
  induction segs with
  | nil => intro acc; simp
  | cons x xs ih =>
    intro acc
    rw [List.foldl_cons, ih (acc ++ g x), List.map_cons, List.foldr_cons,
      String.append_assoc]

lemma formatTranscript_eq_foldr (segs : List TranscriptSegment) :
    formatTranscript segs = (segs.map fmtEntry).foldr (· ++ ·) "" := by
  unfold formatTranscript
  rw [foldl_append_entries fmtEntry segs ""]
  exact String.empty_append _

/-! ### Fence cleaning -/

lemma cleanContent_fenced (s : String) :
    cleanContent ("```json\n" ++ s ++ "\n```") = pyStripWs s := by
  have e1 : ("```json\n" ++ s ++ "\n```").toList
      = '`' :: '`' :: '`' :: 'j' :: 's' :: 'o' :: 'n' :: '\n' ::
          (s.toList ++ ['\n', '`', '`', '`']) := by
    show ("```json\n".data ++ s.data) ++ "\n```".data = _
    simp [List.append_assoc]
  have eshape1 : '`' :: '`' :: '`' :: 'j' :: 's' :: 'o' :: 'n' :: '\n' ::
        (s.toList ++ ['\n', '`', '`', '`'])
      = '`' :: (('`' :: '`' :: 'j' :: 's' :: 'o' :: 'n' :: '\n' ::
          (s.toList ++ ['\n', '`', '`'])) ++ ['`']) := by
    simp [List.append_assoc]
  have hA : stripList pyIsWs (("```json\n" ++ s ++ "\n```").toList)
      = '`' :: '`' :: '`' :: 'j' :: 's' :: 'o' :: 'n' :: '\n' ::
          (s.toList ++ ['\n', '`', '`', '`']) := by
    rw [e1, eshape1, stripList_id_of_ends pyIsWs '`' '`' _ rfl rfl]
  have hB : stripList (fun c => fenceChars.contains c)
        ('`' :: '`' :: '`' :: 'j' :: 's' :: 'o' :: 'n' :: '\n' ::
          (s.toList ++ ['\n', '`', '`', '`']))
      = '\n' :: (s.toList ++ ['\n']) := by
    rw [stripList_cons_pos _ _ _ rfl, stripList_cons_pos _ _ _ rfl,
      stripList_cons_pos _ _ _ rfl, stripList_cons_pos _ _ _ rfl,
      stripList_cons_pos _ _ _ rfl, stripList_cons_pos _ _ _ rfl,
      stripList_cons_pos _ _ _ rfl]
    rw [show '\n' :: (s.toList ++ ['\n', '`', '`', '`'])
        = ('\n' :: (s.toList ++ ['\n', '`', '`'])) ++ ['`'] by simp [List.append_assoc]]
    rw [stripList_concat_pos _ _ rfl]
    rw [show '\n' :: (s.toList ++ ['\n', '`', '`'])
        = ('\n' :: (s.toList ++ ['\n', '`'])) ++ ['`'] by simp [List.append_assoc]]
    rw [stripList_concat_pos _ _ rfl]
    rw [show '\n' :: (s.toList ++ ['\n', '`'])
        = ('\n' :: (s.toList ++ ['\n'])) ++ ['`'] by simp [List.append_assoc]]
    rw [stripList_concat_pos _ _ rfl]
    exact stripList_id_of_ends _ '\n' '\n' s.toList rfl rfl
  have hC : stripList (fun c => List.contains ['`'] c) ('\n' :: (s.toList ++ ['\n']))
      = '\n' :: (s.toList ++ ['\n']) := stripList_id_of_ends _ '\n' '\n' s.toList rfl rfl
  have hD : stripList pyIsWs ('\n' :: (s.toList ++ ['\n'])) = stripList pyIsWs s.toList := by
    rw [stripList_cons_pos _ _ _ rfl, stripList_concat_pos _ _ rfl]
  unfold cleanContent pyStripWs pyStripChars
  rw [hA]
  rw [show (String.mk ('`' :: '`' :: '`' :: 'j' :: 's' :: 'o' :: 'n' :: '\n' ::
      (s.toList ++ ['\n', '`', '`', '`']))).toList
      = '`' :: '`' :: '`' :: 'j' :: 's' :: 'o' :: 'n' :: '\n' ::
          (s.toList ++ ['\n', '`', '`', '`']) from rfl]
  rw [hB]
  rw [show (String.mk ('\n' :: (s.toList ++ ['\n']))).toList
      = '\n' :: (s.toList ++ ['\n']) from rfl]
  rw [hC]
  rw [show (String.mk ('\n' :: (s.toList ++ ['\n']))).toList
      = '\n' :: (s.toList ++ ['\n']) from rfl]
  rw [hD]

/-! ## Claim theorems -/

/-- C1: the code contradicts the claim that transcript-fetch failures
(`TranscriptsDisabled`, `NoTranscriptFound`, other exceptions) surface as
400-status responses.  The handler does raise `HTTPException(400, …)` with
the claimed messages (lines 67-72), but the trailing `except Exception`
clause (lines 151-152) catches those very exceptions — `HTTPException`
subclasses `Exception` — and re-raises status 500, so the client observes
500 with the original `"400: …"` string inside the detail.  This theorem
evaluates the handler at the three failure kinds. -/
theorem transcript_failure_surfaces_as_500_c1 :
    ask_video_topic ⟨"https://youtu.be/dQw4w9WgXcQ", "recursion"⟩ FetchResult.disabled
        ⟨some "token", some "url"⟩ ⟨200, "", ""⟩ =
      Outcome.error 500
        "400: The creator disabled subtitles for this video. The text-hack won't work here!" ∧
    ask_video_topic ⟨"https://youtu.be/dQw4w9WgXcQ", "recursion"⟩ FetchResult.notFound
        ⟨some "token", some "url"⟩ ⟨200, "", ""⟩ =
      Outcome.error 500 "400: No transcript found for this video." ∧
    ask_video_topic ⟨"https://youtu.be/dQw4w9WgXcQ", "recursion"⟩ (FetchResult.other "boom")
        ⟨some "token", some "url"⟩ ⟨200, "", ""⟩ =
      Outcome.error 500 "400: Transcript error: boom" := by
  exact ⟨rfl, rfl, rfl⟩

/-- C2: every error raised inside the `/ask` handler body — the 400
`HTTPException`s for an invalid URL, for transcript-fetch failures and for
a non-200 completion included — is caught by the final broad
`except Exception` clause and re-raised as a fresh `HTTPException` whose
status is 500 and whose detail is the `str()` form of the caught
exception; consequently no error response of the endpoint ever carries a
status other than 500. -/
theorem catch_all_rethrows_500_c2 :
    ∀ (req : AskRequest) (fetch : FetchResult) (env : Env) (chat : ChatResponse),
      (∀ e, askInner req fetch env chat = Except.error e →
        ask_video_topic req fetch env chat = Outcome.error 500 (strOfExc e)) ∧
      (∀ st d, ask_video_topic req fetch env chat = Outcome.error st d → st = 500) := by
  intro req fetch env chat
  constructor
  · intro e he
    unfold ask_video_topic
    rw [he]
  · intro st d h
    unfold ask_video_topic at h
    cases hi : askInner req fetch env chat with
    | ok r =>
      rw [hi] at h
      exact Outcome.noConfusion h
    | error e =>
      rw [hi] at h
      injection h with h1 h2
      exact h1.symm

/-- Witness for C2 at a concrete input: the 400 "Invalid YouTube URL"
exception surfaces to the client as a 500 response. -/
theorem catch_all_rethrows_500_c2_witness :
    ask_video_topic ⟨"not a url", "t"⟩ (FetchResult.ok []) ⟨some "token", some "url"⟩
        ⟨200, "", ""⟩ = Outcome.error 500 "400: Invalid YouTube URL" :=
  (catch_all_rethrows_500_c2 ⟨"not a url", "t"⟩ (FetchResult.ok [])
    ⟨some "token", some "url"⟩ ⟨200, "", ""⟩).1 (Exc.http 400 "Invalid YouTube URL") rfl

/-- C3: a chat-completion response with a non-success status fails the
request with no retry (the model makes a single completion call); the
client receives status 500 (the inner 400 `"AIPipe Error"` exception is
re-raised by the catch-all as 500) and the detail embeds the upstream
response body verbatim. -/
theorem upstream_non_success_fails_c3 :
    ∀ (req : AskRequest) (fetch : FetchResult) (env : Env) (chat : ChatResponse)
      (vid : String) (segs : List TranscriptSegment),
      extract_video_id req.video_url = Except.ok vid →
      fetch = FetchResult.ok segs →
      envMissing env = false →
      chat.status_code ≠ 200 →
      ask_video_topic req fetch env chat =
        Outcome.error 500 ("400: AIPipe Error: " ++ chat.text) := by
  intro req fetch env chat vid segs h1 h2 h3 h4
  subst h2
  have hinner : askInner req (FetchResult.ok segs) env chat =
      Except.error (Exc.http 400 ("AIPipe Error: " ++ chat.text)) := by
    unfold askInner
    rw [h1]
    simp [h3, h4, Except.bind, bind, Except.instMonad, throw, throwThe,
      MonadExceptOf.throw, Except.pure]
  unfold ask_video_topic
  rw [hinner]
  rfl

/-- Witness for C3 at a concrete input: a 502 upstream response with body
`"upstream body"`. -/
theorem upstream_non_success_fails_c3_witness :
    ask_video_topic ⟨"https://youtu.be/dQw4w9WgXcQ", "t"⟩ (FetchResult.ok [])
        ⟨some "token", some "url"⟩ ⟨502, "upstream body", ""⟩ =
      Outcome.error 500 "400: AIPipe Error: upstream body" :=
  upstream_non_success_fails_c3 ⟨"https://youtu.be/dQw4w9WgXcQ", "t"⟩ (FetchResult.ok [])
    ⟨some "token", some "url"⟩ ⟨502, "upstream body", ""⟩ "dQw4w9WgXcQ" [] rfl rfl rfl
    (by decide)

/-- C4 counterexample: on a completion `"around 00:03:40 he says"` whose
cleaned form fails JSON parsing, the code does not fall back to scanning
for `\d\d:\d\d:\d\d` — it raises `HTTPException(500, "AI returned invalid
JSON: …")`, so the request fails instead of returning `00:03:40` (note the
cleanup chain has also chopped the trailing `s`, as `strip("```json")`
strips a character set). -/
theorem json_parse_failure_counterexample_c4 :
    ask_video_topic ⟨"https://youtu.be/dQw4w9WgXcQ", "recursion"⟩ (FetchResult.ok [])
        ⟨some "token", some "url"⟩ ⟨200, "", "around 00:03:40 he says"⟩ =
      Outcome.error 500 "500: AI returned invalid JSON: around 00:03:40 he say" ∧
    ask_video_topic ⟨"https://youtu.be/dQw4w9WgXcQ", "recursion"⟩ (FetchResult.ok [])
        ⟨some "token", some "url"⟩ ⟨200, "", "around 00:03:40 he says"⟩ ≠
      Outcome.ok ⟨"00:03:40", "https://youtu.be/dQw4w9WgXcQ", "recursion"⟩ := by
  exact ⟨rfl, by decide⟩

/-- C4 (amended): whenever the cleaned completion text fails strict JSON
parsing, the handler raises `HTTPException(500, "AI returned invalid
JSON: <cleaned text>")`, which the catch-all re-raises as a 500 response;
there is no regex fallback scan and no sentinel substitution on this
path. -/
theorem json_parse_failure_raises_c4 :
    ∀ (req : AskRequest) (fetch : FetchResult) (env : Env) (chat : ChatResponse)
      (vid : String) (segs : List TranscriptSegment),
      extract_video_id req.video_url = Except.ok vid →
      fetch = FetchResult.ok segs →
      envMissing env = false →
      chat.status_code = 200 →
      json_loads (cleanContent chat.content) = none →
      ask_video_topic req fetch env chat =
        Outcome.error 500 ("500: AI returned invalid JSON: " ++ cleanContent chat.content) := by
  intro req fetch env chat vid segs h1 h2 h3 h4 h5
  subst h2
  have hinner : askInner req (FetchResult.ok segs) env chat =
      Except.error (Exc.http 500 ("AI returned invalid JSON: " ++ cleanContent chat.content)) := by
    unfold askInner
    rw [h1]
    simp [h3, h4, h5, Except.bind, bind, Except.instMonad, throw, throwThe,
      MonadExceptOf.throw, Except.pure]
  unfold ask_video_topic
  rw [hinner]
  rfl

/-- Witness for the amended C4 at a concrete input. -/
theorem json_parse_failure_raises_c4_witness :
    ask_video_topic ⟨"https://youtu.be/dQw4w9WgXcQ", "t"⟩ (FetchResult.ok [])
        ⟨some "token", some "url"⟩ ⟨200, "", "not json at all"⟩ =
      Outcome.error 500 ("500: AI returned invalid JSON: " ++ cleanContent "not json at all") :=
  json_parse_failure_raises_c4 ⟨"https://youtu.be/dQw4w9WgXcQ", "t"⟩ (FetchResult.ok [])
    ⟨some "token", some "url"⟩ ⟨200, "", "not json at all"⟩ "dQw4w9WgXcQ" [] rfl rfl rfl rfl rfl

/-- C5 counterexample: when the model answers `{"timestamp": "5:30"}` the
endpoint returns `"5:30"` verbatim — the two-field value is neither
three-field `HH:MM:SS` nor equal to what the spec's
`TimestampCodec.normalize` would produce, so no normalization step runs
before the response is built. -/
theorem no_normalization_counterexample_c5 :
    ask_video_topic ⟨"https://youtu.be/dQw4w9WgXcQ", "recursion"⟩ (FetchResult.ok [])
        ⟨some "token", some "url"⟩ ⟨200, "", "\x7b\"timestamp\": \"5:30\"\x7d"⟩ =
      Outcome.ok ⟨"5:30", "https://youtu.be/dQw4w9WgXcQ", "recursion"⟩ ∧
    normalize_spec "5:30" = "00:5:30" ∧
    ("5:30" : String) ≠ normalize_spec "5:30" ∧
    (splitOnChar ':' ("5:30" : String).toList).length = 2 := by
  exact ⟨rfl, rfl, by decide, rfl⟩

/-- C5 (amended): the `timestamp` field of a successful response is the
extracted value passed through Python `str()` — a truthy string comes back
verbatim, with no `TimestampCodec.normalize` step and no guarantee of an
`HH:MM:SS` shape (a falsy value is replaced by the sentinel `00:00:00`,
which happens to be well-formed). -/
theorem timestamp_returned_verbatim_c5 :
    ∀ (req : AskRequest) (fetch : FetchResult) (env : Env) (chat : ChatResponse)
      (vid : String) (segs : List TranscriptSegment)
      (kvs : List (String × JValue)) (t : String),
      extract_video_id req.video_url = Except.ok vid →
      fetch = FetchResult.ok segs →
      envMissing env = false →
      chat.status_code = 200 →
      json_loads (cleanContent chat.content) = some (JValue.obj kvs) →
      pyDictGet kvs "timestamp" = some (JValue.str t) →
      t ≠ "" →
      ask_video_topic req fetch env chat =
        Outcome.ok ⟨t, req.video_url, req.topic⟩ := by
  intro req fetch env chat vid segs kvs t h1 h2 h3 h4 h5 h6 h7
  subst h2
  have hinner : askInner req (FetchResult.ok segs) env chat =
      Except.ok ⟨t, req.video_url, req.topic⟩ := by
    unfold askInner
    rw [h1]
    simp [h3, h4, h5, h6, h7, Except.bind, bind, Except.instMonad, throw, throwThe,
      MonadExceptOf.throw, Except.pure, pure, falsy, pyStr, String.isEmpty_iff]
  unfold ask_video_topic
  rw [hinner]

/-- Witness for the amended C5 at a concrete input (`"5:30"` echoed). -/
theorem timestamp_returned_verbatim_c5_witness :
    ask_video_topic ⟨"https://youtu.be/dQw4w9WgXcQ", "t"⟩ (FetchResult.ok [])
        ⟨some "token", some "url"⟩ ⟨200, "", "\x7b\"timestamp\": \"5:30\"\x7d"⟩ =
      Outcome.ok ⟨"5:30", "https://youtu.be/dQw4w9WgXcQ", "t"⟩ :=
  timestamp_returned_verbatim_c5 ⟨"https://youtu.be/dQw4w9WgXcQ", "t"⟩ (FetchResult.ok [])
    ⟨some "token", some "url"⟩ ⟨200, "", "\x7b\"timestamp\": \"5:30\"\x7d"⟩ "dQw4w9WgXcQ" []
    [("timestamp", JValue.str "5:30")] "5:30" rfl rfl rfl rfl rfl rfl (by decide)

/-- C10: when the completion parses to a JSON object whose `timestamp`
field is absent or falsy (`null`, `""`, `0`, `false`, empty containers),
the handler substitutes the sentinel `00:00:00` and the request succeeds. -/
theorem falsy_timestamp_sentinel_c10 :
    ∀ (req : AskRequest) (fetch : FetchResult) (env : Env) (chat : ChatResponse)
      (vid : String) (segs : List TranscriptSegment) (kvs : List (String × JValue)),
      extract_video_id req.video_url = Except.ok vid →
      fetch = FetchResult.ok segs →
      envMissing env = false →
      chat.status_code = 200 →
      json_loads (cleanContent chat.content) = some (JValue.obj kvs) →
      (pyDictGet kvs "timestamp" = none ∨
        ∃ v, pyDictGet kvs "timestamp" = some v ∧ falsy v = true) →
      ask_video_topic req fetch env chat =
        Outcome.ok ⟨"00:00:00", req.video_url, req.topic⟩ := by
  intro req fetch env chat vid segs kvs h1 h2 h3 h4 h5 h6
  subst h2
  have hinner : askInner req (FetchResult.ok segs) env chat =
      Except.ok ⟨"00:00:00", req.video_url, req.topic⟩ := by
    unfold askInner
    rw [h1]
    rcases h6 with h6 | ⟨v, hv, hfv⟩
    · simp [h3, h4, h5, h6, Except.bind, bind, Except.instMonad, throw, throwThe,
        MonadExceptOf.throw, Except.pure, pure]
    · simp [h3, h4, h5, hv, hfv, Except.bind, bind, Except.instMonad, throw, throwThe,
        MonadExceptOf.throw, Except.pure, pure]
  unfold ask_video_topic
  rw [hinner]

/-- Witness for C10 at a concrete input (`{"timestamp": null}`). -/
theorem falsy_timestamp_sentinel_c10_witness :
    ask_video_topic ⟨"https://youtu.be/dQw4w9WgXcQ", "t"⟩ (FetchResult.ok [])
        ⟨some "token", some "url"⟩ ⟨200, "", "\x7b\"timestamp\": null\x7d"⟩ =
      Outcome.ok ⟨"00:00:00", "https://youtu.be/dQw4w9WgXcQ", "t"⟩ :=
  falsy_timestamp_sentinel_c10 ⟨"https://youtu.be/dQw4w9WgXcQ", "t"⟩ (FetchResult.ok [])
    ⟨some "token", some "url"⟩ ⟨200, "", "\x7b\"timestamp\": null\x7d"⟩ "dQw4w9WgXcQ" []
    [("timestamp", JValue.null)] rfl rfl rfl rfl rfl
    (Or.inr ⟨JValue.null, rfl, rfl⟩)

/-- C6: `extract_video_id` returns the captured group of the leftmost
position where `v=` or `/` is followed by 11 characters over
`[0-9A-Za-z_-]` (`matchAt` is exactly that one-position test), fails with
`HTTPException(400, "Invalid YouTube URL")` exactly when no position
matches, and behaves as claimed on the three spec examples. -/
theorem extract_video_id_leftmost_c6 :
    (∀ url t, extract_video_id url = Except.ok t ↔
      ∃ i, matchAt url.toList i = some t ∧
        ∀ j, j < i → matchAt url.toList j = none) ∧
    (∀ url, extract_video_id url = Except.error (Exc.http 400 "Invalid YouTube URL") ↔
      ∀ i, matchAt url.toList i = none) ∧
    extract_video_id "https://youtube.com/watch?v=dQw4w9WgXcQ&t=5s" = Except.ok "dQw4w9WgXcQ" ∧
    extract_video_id "https://youtu.be/dQw4w9WgXcQ" = Except.ok "dQw4w9WgXcQ" ∧
    extract_video_id "not a url" = Except.error (Exc.http 400 "Invalid YouTube URL") := by
  refine ⟨?_, ?_, rfl, rfl, rfl⟩
  · intro url t
    have key : extract_video_id url = Except.ok t ↔
        firstHit (matchAt url.toList) 0 (url.toList.length + 1) = some t := by
      unfold extract_video_id regexSearch
      cases hf : firstHit (matchAt url.toList) 0 (url.toList.length + 1) with
      | some u => simp [hf]
      | none => simp [hf]
    rw [key, firstHit_eq_some_iff]
    constructor
    · rintro ⟨i, -, -, h3, h4⟩
      exact ⟨i, h3, fun j hj => h4 j (Nat.zero_le j) hj⟩
    · rintro ⟨i, h1, h2⟩
      have hi := matchAt_lt_of_some h1
      exact ⟨i, Nat.zero_le i, by omega, h1, fun j _ hj => h2 j hj⟩
  · intro url
    have key : extract_video_id url = Except.error (Exc.http 400 "Invalid YouTube URL") ↔
        firstHit (matchAt url.toList) 0 (url.toList.length + 1) = none := by
      unfold extract_video_id regexSearch
      cases hf : firstHit (matchAt url.toList) 0 (url.toList.length + 1) with
      | some u => simp [hf]
      | none => simp [hf]
    rw [key, firstHit_eq_none_iff]
    constructor
    · intro h i
      cases hm : matchAt url.toList i with
      | some u =>
        have hlt := matchAt_lt_of_some hm
        have hn := h i (Nat.zero_le i) (by omega)
        rw [hn] at hm
        exact Option.noConfusion hm
      | none => rfl
    · intro h i _ _
      exact h i

/-- Witness for C6 at a concrete input: the leftmost-match description is
realized on the short-URL example. -/
theorem extract_video_id_leftmost_c6_witness :
    ∃ i, matchAt ("https://youtu.be/dQw4w9WgXcQ" : String).toList i = some "dQw4w9WgXcQ" ∧
      ∀ j, j < i → matchAt ("https://youtu.be/dQw4w9WgXcQ" : String).toList j = none :=
  (extract_video_id_leftmost_c6.1 "https://youtu.be/dQw4w9WgXcQ" "dQw4w9WgXcQ").mp rfl

/-- C7: for nonnegative seconds the rendered clock is
`hours = ⌊s / 3600⌋`, `minutes = ⌊(s mod 3600) / 60⌋`, `secs = ⌊s mod 60⌋`,
each zero-padded to width at least 2 and joined with `:`; `3725` renders as
`01:02:05` and a value of 100 hours renders a three-digit hours field. -/
theorem seconds_to_hhmmss_clock_c7 :
    (∀ q : ℚ, 0 ≤ q →
      seconds_to_hhmmss q =
        pad2 ⌊q / 3600⌋ ++ ":" ++ pad2 ⌊pyModQ q 3600 / 60⌋ ++ ":" ++
          pad2 ⌊pyModQ q 60⌋ ∧
      2 ≤ (pad2 ⌊q / 3600⌋).length ∧
      2 ≤ (pad2 ⌊pyModQ q 3600 / 60⌋).length ∧
      2 ≤ (pad2 ⌊pyModQ q 60⌋).length) ∧
    seconds_to_hhmmss 3725 = "01:02:05" ∧
    seconds_to_hhmmss 360000 = "100:00:00" := by
  refine ⟨?_, by with_unfolding_all rfl, by with_unfolding_all rfl⟩
  intro q hq
  refine ⟨?_, two_le_pad2_length _, two_le_pad2_length _, two_le_pad2_length _⟩
  simp only [seconds_to_hhmmss, pyFloorDivQ]
  rw [pyTrunc_intCast, pyTrunc_intCast, pyTrunc_pyModQ q (by norm_num)]

/-- Witness for C7 at the concrete input 3725. -/
theorem seconds_to_hhmmss_clock_c7_witness :
    seconds_to_hhmmss 3725 =
      pad2 ⌊(3725 : ℚ) / 3600⌋ ++ ":" ++ pad2 ⌊pyModQ 3725 3600 / 60⌋ ++ ":" ++
        pad2 ⌊pyModQ 3725 60⌋ :=
  (seconds_to_hhmmss_clock_c7.1 3725 (by norm_num)).1

/-- C8 counterexample: a newline inside a segment's text is NOT replaced
by a space — the text is embedded verbatim, so one segment can produce two
lines and the claimed output (newline collapsed to a space) differs from
the actual one. -/
theorem formatTranscript_newline_counterexample_c8 :
    formatTranscript [⟨0, "a\nb"⟩] = "[00:00:00] a\nb\n" ∧
    lineCount (formatTranscript [⟨0, "a\nb"⟩]) = 2 ∧
    formatTranscript [⟨0, "a\nb"⟩] ≠ "[00:00:00] a b\n" := by
  refine ⟨by with_unfolding_all rfl, by with_unfolding_all rfl, ?_⟩
  with_unfolding_all decide

/-- C8 (amended): each segment contributes the entry
`"[HH:MM:SS] <text>\n"` with the text embedded verbatim (newlines in the
text are kept, so the line count can exceed the segment count); entries
are concatenated in segment order, the empty sequence yields the empty
string, and the spec's two-segment example (whose texts have no newlines)
renders as claimed with one line per segment. -/
theorem formatTranscript_verbatim_c8 :
    formatTranscript [] = "" ∧
    (∀ segs, formatTranscript segs = (segs.map fmtEntry).foldr (· ++ ·) "") ∧
    (∀ xs ys, formatTranscript (xs ++ ys) = formatTranscript xs ++ formatTranscript ys) ∧
    (∀ it, fmtEntry it = "[" ++ seconds_to_hhmmss it.start ++ "] " ++ it.text ++ "\n") ∧
    formatTranscript [⟨0, "Hello"⟩, ⟨65, "World"⟩] = "[00:00:00] Hello\n[00:01:05] World\n" ∧
    lineCount (formatTranscript [⟨0, "Hello"⟩, ⟨65, "World"⟩]) = 2 := by
  refine ⟨rfl, formatTranscript_eq_foldr, ?_, fun it => rfl,
    by with_unfolding_all rfl, by with_unfolding_all rfl⟩
  intro xs ys
  unfold formatTranscript
  rw [List.foldl_append]
  rw [foldl_append_entries fmtEntry ys (xs.foldl (fun acc it => acc ++ fmtEntry it) "")]
  rw [foldl_append_entries fmtEntry ys ""]
  rw [String.empty_append]

/-- C9: the fenced model response cleans to the bare JSON object and the
pipeline extracts `00:02:15` from it; in general the cleanup chain first
strips surrounding whitespace and removes a leading ```` ```json ````
fence line and a trailing ```` ``` ```` fence line, leaving the (trimmed)
body for the strict JSON parse. -/
theorem fenced_response_cleaning_c9 :
    cleanContent "```json\n\x7b\"timestamp\":\"00:02:15\"\x7d\n```" =
      "\x7b\"timestamp\":\"00:02:15\"\x7d" ∧
    (∀ s, cleanContent ("```json\n" ++ s ++ "\n```") = pyStripWs s) ∧
    json_loads "\x7b\"timestamp\":\"00:02:15\"\x7d" =
      some (JValue.obj [("timestamp", JValue.str "00:02:15")]) ∧
    ask_video_topic ⟨"https://youtu.be/dQw4w9WgXcQ", "recursion"⟩ (FetchResult.ok [])
        ⟨some "token", some "url"⟩
        ⟨200, "", "```json\n\x7b\"timestamp\":\"00:02:15\"\x7d\n```"⟩ =
      Outcome.ok ⟨"00:02:15", "https://youtu.be/dQw4w9WgXcQ", "recursion"⟩ := by
  exact ⟨rfl, cleanContent_fenced, rfl, rfl⟩

end App
